import Mathlib

/-
Verification of the orders-demo service: a shallow embedding of the Go
source (store with durable table + in-memory cache, minimal order
validation, the per-message ingestion handler, and the two HTTP read
handlers), together with theorems checking the specification's claims
against it.
-/

set_option autoImplicit false

namespace OrdersDemo

/-- Strings are modelled as lists of characters so that the prefix-trimming
done by the API handler can be reasoned about with list lemmas. -/
abbrev Str := List Char

/-- A JSON value. Object fields keep their textual order (Go's decoder
processes fields in order of occurrence, later occurrences overwriting
earlier ones). Numbers are modelled as integers; no claim depends on
numeric values. -/
inductive Json where
  | null
  | bool (b : Bool)
  | num (n : Int)
  | str (s : Str)
  | arr (elems : List Json)
  | obj (fields : List (Str × Json))

/-- A byte payload as it travels through the system: the raw bytes (opaque;
stored verbatim in the database, the cache, and HTTP response bodies)
together with the result of parsing them as JSON — `none` when the bytes are
not well-formed JSON, i.e. when `json.Valid` reports failure. -/
structure Bytes where
  raw : List Nat
  parsed : Option Json

/-- Lookup in an association list keyed by identifier: the value of the
first entry whose key equals `k` (keys are unique in every list the
operations below produce, matching the `order_uid` primary key and the Go
map). -/
def assocGet {α : Type} (k : Str) : List (Str × α) → Option α
  | [] => none
  | kv :: rest => if kv.1 = k then some kv.2 else assocGet k rest

/-- Insert-or-update in an association list: replace the value of the entry
keyed `k` if present, otherwise append a new entry. This models both the SQL
`INSERT ... ON CONFLICT(order_uid) DO UPDATE SET payload = EXCLUDED.payload`
on the durable table and assignment into the Go cache map. -/
def assocSet {α : Type} (k : Str) (v : α) : List (Str × α) → List (Str × α)
  | [] => [(k, v)]
  | kv :: rest => if kv.1 = k then (k, v) :: rest else kv :: assocSet k v rest

/-- The state held by `Store`: the durable `orders` table (keyed by
`order_uid`, holding the raw payload — the `created_at` column is not
observable through any operation modelled here) and the in-memory cache map
from `order_uid` to the raw payload (`cache map[string]json.RawMessage`). -/
structure Store where
  db : List (Str × Bytes)
  cache : List (Str × Bytes)

/-- The error the durable layer can report: a failed `db.Exec`, surfaced by
`Upsert` as a non-nil error (the spec's `StoreUnavailable` class). -/
inductive StoreErr where
  | storeUnavailable

/-- Observable side effects of a store operation, in the order they are
performed: the durable table write, the cache map write, and the channel
acknowledgment issued by the message handler. -/
inductive Event where
  | dbWrite (id : Str) (payload : Bytes)
  | cacheWrite (id : Str) (payload : Bytes)
  | ack

/-- What a call to `Store.Upsert` returns and does: the returned error (if
any), the state of the store afterwards, and the trace of writes performed,
in order. -/
structure UpsertResult where
  err : Option StoreErr
  store : Store
  events : List Event

/-- Embeds `Store.Upsert` (src/unnamed/part_001 lines 96–102): execute the
durable `INSERT ... ON CONFLICT(order_uid) DO UPDATE` first; if it fails,
return the error at once — the cache line is never reached and neither the
table nor the cache changes; if it succeeds, set the cache entry under the
write lock and return nil. `dbOk` models the outcome of the external
`db.Exec` call (false = the database reports an error; a failed SQL
statement is atomic and leaves the table unchanged). -/
def Store.Upsert (s : Store) (dbOk : Bool) (id : Str) (payload : Bytes) : UpsertResult :=
  if dbOk then
    ⟨none, ⟨assocSet id payload s.db, assocSet id payload s.cache⟩,
      [Event.dbWrite id payload, Event.cacheWrite id payload]⟩
  else
    ⟨some StoreErr.storeUnavailable, s, []⟩

/-- Embeds `Store.Get` (lines 103–106): read the cache map under the read
lock; the durable table is not consulted. The Go version returns
`(json.RawMessage, bool)`; here the pair is an `Option`. -/
def Store.Get (s : Store) (id : Str) : Option Bytes :=
  assocGet id s.cache

/-- Embeds the success path of `Store.LoadCache` (lines 83–95): scan every
`(order_uid, payload)` row of the durable `orders` table and assign each
into the cache map in row order. Row order of the `SELECT` is arbitrary;
the table's rows are modelled by `s.db` in list order. -/
def Store.LoadCache (s : Store) : Store :=
  ⟨s.db, s.db.foldl (fun c row => assocSet row.1 row.2 c) s.cache⟩

/-- The anonymous struct `tmp` that `minimalValidateOrder` decodes into:
`OrderUID string`, `Delivery *json.RawMessage`, `Payment *json.RawMessage`,
`Items []json.RawMessage`. A `none` pointer field corresponds to a nil Go
pointer; `items` holds the raw elements of the decoded array (nil slice =
`[]`). -/
structure TmpOrder where
  orderUID : Str
  delivery : Option Json
  payment : Option Json
  items : List Json

/-- Effect of decoding one object field occurrence into the `tmp` struct,
following `encoding/json` semantics: `order_uid` must be a string (JSON
null leaves the field untouched, any other non-string value is a type
error); `delivery` and `payment` are `*json.RawMessage`, so any value is
captured raw while an explicit JSON null sets the pointer to nil; `items`
is `[]json.RawMessage`, so an array replaces the slice, null leaves it
untouched, and anything else is a type error; unknown keys are ignored.
Later occurrences of a key are processed after (and overwrite) earlier
ones, as Go does. (`encoding/json`'s case-insensitive field-name fallback
is not modelled; the claims only concern the exact lower-case keys.) -/
def applyField (t : TmpOrder) (key : Str) (v : Json) : Option TmpOrder :=
  if key = ("order_uid").data then
    match v with
    | Json.str s => some ⟨s, t.delivery, t.payment, t.items⟩
    | Json.null => some t
    | _ => none
  else if key = ("delivery").data then
    match v with
    | Json.null => some ⟨t.orderUID, none, t.payment, t.items⟩
    | _ => some ⟨t.orderUID, some v, t.payment, t.items⟩
  else if key = ("payment").data then
    match v with
    | Json.null => some ⟨t.orderUID, t.delivery, none, t.items⟩
    | _ => some ⟨t.orderUID, t.delivery, some v, t.items⟩
  else if key = ("items").data then
    match v with
    | Json.arr xs => some ⟨t.orderUID, t.delivery, t.payment, xs⟩
    | Json.null => some t
    | _ => none
  else some t

/-- Embeds `json.Unmarshal(payload, &tmp)` on a well-formed JSON value:
a top-level JSON null is a no-op that leaves the zero-valued struct; a
top-level object decodes its fields in order of occurrence; any other
top-level value cannot be unmarshalled into a struct and is an error
(`none`). -/
def unmarshalTmp : Json → Option TmpOrder
  | Json.null => some ⟨[], none, none, []⟩
  | Json.obj fields => fields.foldlM (fun t kv => applyField t kv.1 kv.2) ⟨[], none, none, []⟩
  | _ => none

/-- The four error exits of `minimalValidateOrder`, in source order:
`errors.New("invalid JSON")` when `json.Valid` fails; the error returned by
`json.Unmarshal`; `errors.New("missing order_uid")`;
`errors.New("missing required nested fields")`. -/
inductive VErr where
  | invalidJSON
  | unmarshalError
  | missingOrderUID
  | missingNested

/-- Embeds `minimalValidateOrder` (lines 109–123): reject bytes that are
not valid JSON; decode into the `tmp` struct, propagating the unmarshal
error; reject an empty `order_uid`; reject a nil `Delivery` or `Payment`
pointer or an empty `Items` slice; otherwise return the extracted
`order_uid`. -/
def minimalValidateOrder (p : Bytes) : Except VErr Str :=
  match p.parsed with
  | none => Except.error VErr.invalidJSON
  | some j =>
    match unmarshalTmp j with
    | none => Except.error VErr.unmarshalError
    | some t =>
      if t.orderUID.isEmpty then Except.error VErr.missingOrderUID
      else if t.delivery.isNone || t.payment.isNone || t.items.isEmpty then
        Except.error VErr.missingNested
      else Except.ok t.orderUID

/-- The specification's taxonomy of validation failures. -/
inductive SpecErrClass where
  | malformedPayload
  | missingIdentifier
  | missingRequiredSections

/-- How each error exit of `minimalValidateOrder` falls under the
specification's taxonomy: both the `json.Valid` failure and a
`json.Unmarshal` decode error mean the payload is not well-formed
structured order data (`MalformedPayload`); the other two exits map to
their named classes. -/
def specClass : VErr → SpecErrClass
  | VErr.invalidJSON => SpecErrClass.malformedPayload
  | VErr.unmarshalError => SpecErrClass.malformedPayload
  | VErr.missingOrderUID => SpecErrClass.missingIdentifier
  | VErr.missingNested => SpecErrClass.missingRequiredSections

/-- Outcome of the per-message subscription callback: the store state it
leaves behind, whether `m.Ack()` was called, and the trace of observable
effects in the order they happened. -/
structure MsgResult where
  store : Store
  acked : Bool
  events : List Event

/-- Embeds the `stan.Msg` callback registered in `main` (lines 220–229):
validate the payload — on a validation error log, ack, and return (drop);
otherwise upsert the raw payload under the extracted id — on an upsert
error log and return WITHOUT acking (the message stays pending for
redelivery); on success ack. `dbOk` models the durable write outcome, as
in `Store.Upsert`. -/
def handleMsg (s : Store) (dbOk : Bool) (data : Bytes) : MsgResult :=
  match minimalValidateOrder data with
  | Except.error _ => ⟨s, true, [Event.ack]⟩
  | Except.ok id =>
    let r := Store.Upsert s dbOk id data
    match r.err with
    | some _ => ⟨r.store, false, r.events⟩
    | none => ⟨r.store, true, r.events ++ [Event.ack]⟩

/-- An HTTP response of the JSON API handler: the status code and, for a
hit, the raw stored payload written as the body (`none` for the plain-text
error bodies of `http.Error`). -/
structure ApiResponse where
  status : Nat
  body : Option Bytes

/-- Embeds `strings.TrimPrefix(r.URL.Path, "/api/orders/")`: remove the
leading route pattern if present, otherwise return the path unchanged. -/
def trimApiPath (path : Str) : Str :=
  if (("/api/orders/").data).isPrefixOf path then path.drop (("/api/orders/").data).length
  else path

/-- Embeds `apiHandler` (lines 126–136): trim the route pattern off the
request path to obtain the identifier; answer 400 if it is empty or the
trim did nothing; otherwise answer 200 with the raw cached payload on a
cache hit and 404 on a miss. -/
def apiHandler (s : Store) (path : Str) : ApiResponse :=
  let id := trimApiPath path
  if id = [] ∨ id = path then ⟨400, none⟩
  else
    match Store.Get s id with
    | some payload => ⟨200, some payload⟩
    | none => ⟨404, none⟩

/-- Mirror of the Go `Delivery` struct (all string fields). -/
structure Delivery where
  name : Str
  phone : Str
  zip : Str
  city : Str
  address : Str
  region : Str
  email : Str
deriving Inhabited

/-- Mirror of the Go `Payment` struct (string and int64 fields). -/
structure Payment where
  transaction : Str
  requestID : Str
  currency : Str
  provider : Str
  bank : Str
  amount : Int
  paymentDT : Int
  deliveryCost : Int
  goodsTotal : Int
  customFee : Int
deriving Inhabited

/-- Mirror of the Go `Item` struct. -/
structure Item where
  chrtID : Int
  trackNumber : Str
  price : Int
  rid : Str
  name : Str
  sale : Int
  size : Str
  totalPrice : Int
  nmID : Int
  brand : Str
  status : Int
deriving Inhabited

/-- Mirror of the Go `Order` struct rendered by the HTML template. The
`Inhabited` default is the Go zero value (empty strings, zeros, empty
slice, zero-valued nested structs). -/
structure Order where
  orderUID : Str
  trackNumber : Str
  entry : Str
  locale : Str
  internalSign : Str
  customerID : Str
  deliveryService : Str
  shardKey : Str
  dateCreated : Str
  oofShard : Str
  delivery : Delivery
  payment : Payment
  items : List Item
  smID : Int
deriving Inhabited

/-- Error classes of `json.Unmarshal(payload, &data.Order)` as the page
handler can observe them: a syntax error (bytes are not valid JSON) or a
type error (the top-level value is neither an object nor null, so it
cannot be unmarshalled into a struct). -/
inductive JsonDecodeErr where
  | syntaxError
  | typeMismatch

/-- Models `json.Unmarshal(payload, &data.Order)` in `pageHandler`. The
handler discards the returned error (`_ = json.Unmarshal(...)`), so only
the error/success split is observable in the claims about it: the call
errors when the bytes are not valid JSON or when the top-level JSON value
is neither an object nor null, and in exactly those cases `encoding/json`
leaves the destination struct untouched at its zero value. The values of
the individual `Order` fields decoded from a top-level object are not
modelled (no claim observes them; the modelled result is the zero value),
and neither are field-level type errors inside a top-level object. -/
def unmarshalOrder (p : Bytes) : Except JsonDecodeErr Order :=
  match p.parsed with
  | none => Except.error JsonDecodeErr.syntaxError
  | some Json.null => Except.ok default
  | some (Json.obj _) => Except.ok default
  | some _ => Except.error JsonDecodeErr.typeMismatch

/-- The data handed to the HTML template: the queried id (echoed in the
search form), whether the record was found, the decoded `Order`, and the
raw payload bytes shown in the raw-JSON section (`data.Raw =
string(payload)`). -/
structure PageData where
  id : Str
  found : Bool
  order : Order
  raw : List Nat

/-- An HTTP response of the HTML page handler: status code and template
data. The handler never calls `WriteHeader`, so the first body write sends
status 200 unconditionally. -/
structure PageResponse where
  status : Nat
  data : PageData

/-- Embeds `pageHandler` (lines 184–198): read the `id` query parameter
(empty when absent); when it is non-empty and the cache has an entry, mark
the record found, keep the raw payload for display, and unmarshal it into
`Order`, DISCARDING any unmarshal error; render the template with
status 200 in every case. -/
def pageHandler (s : Store) (id : Str) : PageResponse :=
  if id = [] then ⟨200, ⟨id, false, default, []⟩⟩
  else
    match Store.Get s id with
    | some payload =>
      ⟨200, ⟨id, true,
        (match unmarshalOrder payload with
         | Except.ok o => o
         | Except.error _ => default), payload.raw⟩⟩
    | none => ⟨200, ⟨id, false, default, []⟩⟩

/-- The invariant claimed for the store: every entry of the in-memory cache
holds exactly the payload durably committed for the same identifier. -/
def CacheConsistent (s : Store) : Prop :=
  ∀ id p, assocGet id s.cache = some p → assocGet id s.db = some p

/- Helper lemmas about the association-list operations. -/

theorem assocGet_assocSet_self {α : Type} (l : List (Str × α)) (k : Str) (v : α) :
    assocGet k (assocSet k v l) = some v := by
  induction l with
  | nil => simp [assocSet, assocGet]
  | cons kv rest ih =>
    by_cases hk : kv.1 = k
    · simp [assocSet, assocGet, hk]
    · simp [assocSet, assocGet, hk, ih]

theorem assocGet_assocSet_ne {α : Type} (l : List (Str × α)) (k k' : Str) (v : α)
    (h : k' ≠ k) : assocGet k' (assocSet k v l) = assocGet k' l := by
  induction l with
  | nil => simp [assocSet, assocGet, h, Ne.symm h]
  | cons kv rest ih =>
    by_cases hk : kv.1 = k
    · by_cases h2 : kv.1 = k'
      · exact absurd (h2.symm.trans hk) h
      · simp [assocSet, assocGet, hk, h2, Ne.symm h]
    · by_cases h2 : kv.1 = k'
      · simp [assocSet, assocGet, hk, h2, h]
      · simp [assocSet, assocGet, hk, h2, ih]

theorem assocSet_assocSet {α : Type} (l : List (Str × α)) (k : Str) (v1 v2 : α) :
    assocSet k v2 (assocSet k v1 l) = assocSet k v2 l := by
  induction l with
  | nil => simp [assocSet]
  | cons kv rest ih =>
    by_cases hk : kv.1 = k
    · simp [assocSet, hk]
    · simp [assocSet, hk, ih]

theorem assocGet_eq_none_of_not_mem {α : Type} (l : List (Str × α)) (k : Str)
    (h : k ∉ l.map Prod.fst) : assocGet k l = none := by
  induction l with
  | nil => rfl
  | cons kv rest ih =>
    simp only [List.map_cons, List.mem_cons] at h
    push_neg at h
    simp [assocGet, Ne.symm h.1, ih h.2]

theorem assocGet_loadFold {α : Type} (db : List (Str × α)) (c : List (Str × α)) (k : Str)
    (hnd : (db.map Prod.fst).Nodup) :
    assocGet k (db.foldl (fun acc row => assocSet row.1 row.2 acc) c) =
      (match assocGet k db with
       | some v => some v
       | none => assocGet k c) := by
  induction db generalizing c with
  | nil => simp [assocGet]
  | cons row rest ih =>
    simp only [List.map_cons, List.nodup_cons] at hnd
    rw [List.foldl_cons, ih (assocSet row.1 row.2 c) hnd.2]
    by_cases hk : row.1 = k
    · subst hk
      rw [assocGet_eq_none_of_not_mem rest row.1 hnd.1]
      simp [assocGet, assocGet_assocSet_self]
    · simp only [assocGet, if_neg hk]
      rw [assocGet_assocSet_ne c row.1 k row.2 (fun he => hk he.symm)]

/-- C1: in every call to `Upsert`, the cache is written only after the
durable write has succeeded: a failed durable write makes `Upsert` return
the error with the whole store — table and cache — unchanged and no write
performed, a successful call performs the durable table write strictly
before the cache write, and `Upsert` preserves the invariant that every
cache entry is the durably committed record for its identifier. -/
theorem upsert_cache_only_after_durable_write (s : Store) (dbOk : Bool) (id : Str) (p : Bytes) :
    (dbOk = false →
      Store.Upsert s dbOk id p = ⟨some StoreErr.storeUnavailable, s, []⟩) ∧
    (dbOk = true →
      (Store.Upsert s dbOk id p).events = [Event.dbWrite id p, Event.cacheWrite id p]) ∧
    (CacheConsistent s → CacheConsistent (Store.Upsert s dbOk id p).store) := by
  refine ⟨fun h => by simp [Store.Upsert, h], fun h => by simp [Store.Upsert, h], ?_⟩
  intro hc
  cases dbOk with
  | false => simpa [Store.Upsert] using hc
  | true =>
    intro k q hk
    simp only [Store.Upsert, if_pos] at hk ⊢
    by_cases he : k = id
    · subst he
      rw [assocGet_assocSet_self] at hk ⊢
      exact hk
    · rw [assocGet_assocSet_ne _ _ _ _ he] at hk
      rw [assocGet_assocSet_ne _ _ _ _ he]
      exact hc k q hk

theorem upsert_cache_only_after_durable_write_witness :
    Store.Upsert ⟨[], []⟩ false (("A1").data) ⟨[1], none⟩ =
      ⟨some StoreErr.storeUnavailable, ⟨[], []⟩, []⟩ :=
  (upsert_cache_only_after_durable_write ⟨[], []⟩ false (("A1").data) ⟨[1], none⟩).1 rfl

/-- C4: the upsert is idempotent: applying `Upsert` twice in succession
with identical arguments succeeds both times and leaves the durable table
and the cache in exactly the state a single application leaves them in. -/
theorem upsert_idempotent (s : Store) (id : Str) (p : Bytes) :
    (Store.Upsert s true id p).err = none ∧
    (Store.Upsert (Store.Upsert s true id p).store true id p).err = none ∧
    (Store.Upsert (Store.Upsert s true id p).store true id p).store =
      (Store.Upsert s true id p).store := by
  refine ⟨rfl, rfl, ?_⟩
  simp [Store.Upsert, assocSet_assocSet]

theorem upsert_idempotent_witness :
    (Store.Upsert (Store.Upsert ⟨[], []⟩ true (("A1").data) ⟨[1], none⟩).store
        true (("A1").data) ⟨[1], none⟩).store =
      (Store.Upsert ⟨[], []⟩ true (("A1").data) ⟨[1], none⟩).store :=
  (upsert_idempotent ⟨[], []⟩ (("A1").data) ⟨[1], none⟩).2.2

/-- C5: insert-or-update, last processed write wins: for any two payloads
under the same identifier, both upserts succeed (the second never fails on
the existing row), and afterwards both the durable table and the cache map
the identifier to the second payload. -/
theorem upsert_last_write_wins (s : Store) (id : Str) (p1 p2 : Bytes) :
    (Store.Upsert s true id p1).err = none ∧
    (Store.Upsert (Store.Upsert s true id p1).store true id p2).err = none ∧
    assocGet id (Store.Upsert (Store.Upsert s true id p1).store true id p2).store.db =
      some p2 ∧
    Store.Get (Store.Upsert (Store.Upsert s true id p1).store true id p2).store id =
      some p2 := by
  refine ⟨rfl, rfl, ?_, ?_⟩ <;>
    simp [Store.Upsert, Store.Get, assocGet_assocSet_self]

theorem upsert_last_write_wins_witness :
    Store.Get (Store.Upsert (Store.Upsert ⟨[], []⟩ true (("A1").data) ⟨[1], none⟩).store
        true (("A1").data) ⟨[2], none⟩).store (("A1").data) = some ⟨[2], none⟩ :=
  (upsert_last_write_wins ⟨[], []⟩ (("A1").data) ⟨[1], none⟩ ⟨[2], none⟩).2.2.2

/-- C6: bootstrap completeness: when `LoadCache` runs at startup on the
empty cache, and the durable table's identifiers are unique (its primary
key), every lookup afterwards returns exactly the payload stored durably
for that identifier — no stored record is omitted and no spurious entry is
added (a miss in the table is a miss in the cache). -/
theorem loadCache_bootstrap_complete (s : Store)
    (hfresh : s.cache = []) (hnd : (s.db.map Prod.fst).Nodup) (id : Str) :
    Store.Get (Store.LoadCache s) id = assocGet id s.db := by
  simp only [Store.LoadCache, Store.Get]
  rw [assocGet_loadFold s.db s.cache id hnd, hfresh]
  cases h : assocGet id s.db <;> simp [assocGet]

theorem loadCache_bootstrap_complete_witness :
    Store.Get (Store.LoadCache ⟨[((("A1").data), ⟨[1], none⟩)], []⟩) (("A1").data) =
      some ⟨[1], none⟩ :=
  loadCache_bootstrap_complete ⟨[((("A1").data), ⟨[1], none⟩)], []⟩ rfl (by simp) (("A1").data)

/-- C3: the per-message handler's acknowledgment policy: a message failing
validation is acknowledged with no store change (terminal drop); a message
that validates but whose durable upsert fails is NOT acknowledged and the
store is unchanged (left pending for redelivery); a message whose upsert
succeeds is acknowledged, and in its event trace the acknowledgment comes
after both the durable write and the cache write. -/
theorem handleMsg_ack_policy (s : Store) (dbOk : Bool) (data : Bytes) :
    (∀ e, minimalValidateOrder data = Except.error e →
      handleMsg s dbOk data = ⟨s, true, [Event.ack]⟩) ∧
    (∀ id, minimalValidateOrder data = Except.ok id → dbOk = false →
      handleMsg s dbOk data = ⟨s, false, []⟩) ∧
    (∀ id, minimalValidateOrder data = Except.ok id → dbOk = true →
      (handleMsg s dbOk data).acked = true ∧
      (handleMsg s dbOk data).events =
        [Event.dbWrite id data, Event.cacheWrite id data, Event.ack]) := by
  refine ⟨?_, ?_, ?_⟩
  · intro e he
    simp [handleMsg, he]
  · intro id hid hdb
    subst hdb
    simp [handleMsg, hid, Store.Upsert]
  · intro id hid hdb
    subst hdb
    simp [handleMsg, hid, Store.Upsert]

theorem handleMsg_ack_policy_witness :
    handleMsg ⟨[], []⟩ true ⟨[1], none⟩ = ⟨⟨[], []⟩, true, [Event.ack]⟩ :=
  (handleMsg_ack_policy ⟨[], []⟩ true ⟨[1], none⟩).1 VErr.invalidJSON rfl

/-- The trimmed request path of a route-matched API request: trimming the
route pattern off a path of the form pattern-plus-identifier yields the
identifier. -/
theorem trimApiPath_append (id : Str) :
    trimApiPath ((("/api/orders/").data) ++ id) = id := by
  unfold trimApiPath
  rw [if_pos]
  · exact List.drop_left _ _
  · exact List.isPrefixOf_iff_prefix.mpr (List.prefix_append _ _)

/-- C8: the JSON API handler on a request for the route-matched path: an
empty identifier is answered 400; a non-empty identifier present in the
cache is answered 200 with the raw stored payload as the body; a non-empty
identifier absent from the cache is answered 404. -/
theorem apiHandler_routes (s : Store) (id : Str) :
    (id = [] → apiHandler s ((("/api/orders/").data) ++ id) = ⟨400, none⟩) ∧
    (∀ p, id ≠ [] → Store.Get s id = some p →
      apiHandler s ((("/api/orders/").data) ++ id) = ⟨200, some p⟩) ∧
    (id ≠ [] → Store.Get s id = none →
      apiHandler s ((("/api/orders/").data) ++ id) = ⟨404, none⟩) := by
  have hne : id ≠ (("/api/orders/").data) ++ id := by
    intro h
    have hlen := congrArg List.length h
    rw [List.length_append] at hlen
    have h12 : ((("/api/orders/").data)).length = 12 := rfl
    rw [h12] at hlen
    omega
  have hcond : ∀ hid : id ≠ [], ¬(id = [] ∨ id = (("/api/orders/").data) ++ id) := by
    rintro hid (h | h)
    · exact hid h
    · exact hne h
  refine ⟨?_, ?_, ?_⟩
  · intro h
    subst h
    simp only [apiHandler]
    rw [trimApiPath_append]
    rfl
  · intro p hid hget
    simp only [apiHandler]
    rw [trimApiPath_append, if_neg (hcond hid), hget]
  · intro hid hget
    simp only [apiHandler]
    rw [trimApiPath_append, if_neg (hcond hid), hget]

theorem apiHandler_routes_witness :
    apiHandler ⟨[], [((("A1").data), ⟨[1], none⟩)]⟩
        ((("/api/orders/").data) ++ (("A1").data)) = ⟨200, some ⟨[1], none⟩⟩ :=
  (apiHandler_routes ⟨[], [((("A1").data), ⟨[1], none⟩)]⟩ (("A1").data)).2.1
    ⟨[1], none⟩ (by simp) rfl

/-- C9: the HTML page handler answers status 200 for every identifier —
found, absent, or empty — and never 404; the page shows the record exactly
when the identifier is non-empty and present in the cache, and a
not-found rendering otherwise. -/
theorem pageHandler_always_200 (s : Store) (id : Str) :
    (pageHandler s id).status = 200 ∧
    ((pageHandler s id).data.found = true ↔ id ≠ [] ∧ (Store.Get s id).isSome = true) := by
  by_cases h : id = []
  · simp [pageHandler, h]
  · cases hg : Store.Get s id <;> simp [pageHandler, h, hg]

theorem pageHandler_always_200_witness :
    (pageHandler ⟨[], []⟩ (("A1").data)).status = 200 :=
  (pageHandler_always_200 ⟨[], []⟩ (("A1").data)).1

/-- C10: when a cached entry holds bytes that do not unmarshal into the
`Order` structure, the page handler still answers 200 with the entry
treated as found and the raw payload rendered; the unmarshal error is
discarded and the rendered `Order` is the zero value — no server error is
reported. -/
theorem pageHandler_discards_unmarshal_error (s : Store) (id : Str) (p : Bytes)
    (e : JsonDecodeErr) (hid : id ≠ []) (hget : Store.Get s id = some p)
    (hbad : unmarshalOrder p = Except.error e) :
    pageHandler s id = ⟨200, ⟨id, true, default, p.raw⟩⟩ := by
  simp [pageHandler, hid, hget, hbad]

theorem pageHandler_discards_unmarshal_error_witness :
    pageHandler ⟨[], [((("A1").data), ⟨[0], none⟩)]⟩ (("A1").data) =
      ⟨200, ⟨(("A1").data), true, default, [0]⟩⟩ :=
  pageHandler_discards_unmarshal_error ⟨[], [((("A1").data), ⟨[0], none⟩)]⟩
    (("A1").data) ⟨[0], none⟩ JsonDecodeErr.syntaxError (by simp) rfl rfl

/-- C2: for a payload that is well-formed JSON and decodes into the `tmp`
struct with a non-empty `order_uid` string, validation succeeds — and
returns that `order_uid` — exactly when the delivery section is present
and not null, the payment section is present and not null, and the items
section is a non-empty list; in particular present-but-empty `delivery`
and `payment` objects pass, while a present-but-empty `items` list makes
the conjunction false and validation fail. -/
theorem minimalValidateOrder_sections_iff (p : Bytes) (j : Json) (t : TmpOrder)
    (hp : p.parsed = some j) (ht : unmarshalTmp j = some t) (huid : t.orderUID ≠ []) :
    minimalValidateOrder p = Except.ok t.orderUID ↔
      (t.delivery.isNone = false ∧ t.payment.isNone = false ∧ t.items.isEmpty = false) := by
  have h1 : t.orderUID.isEmpty = false := by
    cases hu : t.orderUID with
    | nil => exact absurd hu huid
    | cons a l => rfl
  cases hd : t.delivery.isNone <;> cases hpm : t.payment.isNone <;>
    cases hi : t.items.isEmpty <;>
    simp [minimalValidateOrder, hp, ht, h1, hd, hpm, hi]

theorem minimalValidateOrder_sections_iff_witness :
    minimalValidateOrder ⟨[], some (Json.obj
      [((("order_uid").data), Json.str (("A1").data)),
       ((("delivery").data), Json.obj []),
       ((("payment").data), Json.obj []),
       ((("items").data), Json.arr [Json.obj [((("x").data), Json.num 1)]])])⟩ =
      Except.ok (("A1").data) :=
  (minimalValidateOrder_sections_iff
      ⟨[], some (Json.obj
        [((("order_uid").data), Json.str (("A1").data)),
         ((("delivery").data), Json.obj []),
         ((("payment").data), Json.obj []),
         ((("items").data), Json.arr [Json.obj [((("x").data), Json.num 1)]])])⟩
      (Json.obj
        [((("order_uid").data), Json.str (("A1").data)),
         ((("delivery").data), Json.obj []),
         ((("payment").data), Json.obj []),
         ((("items").data), Json.arr [Json.obj [((("x").data), Json.num 1)]])])
      ⟨(("A1").data), some (Json.obj []), some (Json.obj []),
        [Json.obj [((("x").data), Json.num 1)]]⟩
      rfl rfl (by decide)).mpr ⟨rfl, rfl, rfl⟩

/-- C7: every failure of `minimalValidateOrder` falls under exactly one of
the three spec error classes, each arising precisely under its described
condition: `MalformedPayload` when the payload is not well-formed
structured order data (the bytes are not valid JSON, or the JSON value
does not decode into the expected structure); `MissingIdentifier` when it
decodes but the identifier is absent or empty; `MissingRequiredSections`
when the identifier is present but a section is absent or null, or the
items list is empty. There is no fourth class. -/
theorem minimalValidateOrder_error_taxonomy (p : Bytes) (e : VErr)
    (h : minimalValidateOrder p = Except.error e) :
    (specClass e = SpecErrClass.malformedPayload ∧
      (p.parsed = none ∨ ∃ j, p.parsed = some j ∧ unmarshalTmp j = none)) ∨
    (specClass e = SpecErrClass.missingIdentifier ∧
      ∃ j t, p.parsed = some j ∧ unmarshalTmp j = some t ∧ t.orderUID = []) ∨
    (specClass e = SpecErrClass.missingRequiredSections ∧
      ∃ j t, p.parsed = some j ∧ unmarshalTmp j = some t ∧ t.orderUID ≠ [] ∧
        (t.delivery = none ∨ t.payment = none ∨ t.items = [])) := by
  cases hp : p.parsed with
  | none =>
    simp only [minimalValidateOrder, hp, Except.error.injEq] at h
    subst h
    exact Or.inl ⟨rfl, Or.inl rfl⟩
  | some j =>
    cases hu : unmarshalTmp j with
    | none =>
      simp only [minimalValidateOrder, hp, hu, Except.error.injEq] at h
      subst h
      exact Or.inl ⟨rfl, Or.inr ⟨j, rfl, hu⟩⟩
    | some t =>
      simp only [minimalValidateOrder, hp, hu] at h
      by_cases h1 : t.orderUID.isEmpty = true
      · rw [if_pos h1] at h
        injection h with he
        subst he
        have hnil : t.orderUID = [] := by
          cases hx : t.orderUID with
          | nil => rfl
          | cons a l => rw [hx] at h1; simp at h1
        exact Or.inr (Or.inl ⟨rfl, j, t, rfl, hu, hnil⟩)
      · rw [if_neg h1] at h
        by_cases h2 : (t.delivery.isNone || t.payment.isNone || t.items.isEmpty) = true
        · rw [if_pos h2] at h
          injection h with he
          subst he
          refine Or.inr (Or.inr ⟨rfl, j, t, rfl, hu, ?_, ?_⟩)
          · intro hnil
            exact h1 (by rw [hnil]; rfl)
          · simp only [Bool.or_eq_true] at h2
            rcases h2 with (hx | hx) | hx
            · exact Or.inl (Option.isNone_iff_eq_none.mp hx)
            · exact Or.inr (Or.inl (Option.isNone_iff_eq_none.mp hx))
            · refine Or.inr (Or.inr ?_)
              cases hy : t.items with
              | nil => rfl
              | cons a l => rw [hy] at hx; simp at hx
        · rw [if_neg h2] at h
          exact Except.noConfusion h

theorem minimalValidateOrder_error_taxonomy_witness :
    (specClass VErr.invalidJSON = SpecErrClass.malformedPayload ∧
      ((none : Option Json) = none ∨
        ∃ j, (none : Option Json) = some j ∧ unmarshalTmp j = none)) ∨
    (specClass VErr.invalidJSON = SpecErrClass.missingIdentifier ∧
      ∃ j t, (none : Option Json) = some j ∧ unmarshalTmp j = some t ∧ t.orderUID = []) ∨
    (specClass VErr.invalidJSON = SpecErrClass.missingRequiredSections ∧
      ∃ j t, (none : Option Json) = some j ∧ unmarshalTmp j = some t ∧ t.orderUID ≠ [] ∧
        (t.delivery = none ∨ t.payment = none ∨ t.items = [])) :=
  minimalValidateOrder_error_taxonomy ⟨[], none⟩ VErr.invalidJSON rfl

end OrdersDemo
